import Mathlib

/-!
Shallow embedding of `super_stepper.py`: the step decorator/wrapper, the task
registry, the display generator and the summary reporter.

The module-level mutable globals of the Python file
(`_tasks`, `_failed_tasks`, `_all_task_messages`, `_phase_order`,
`_display_started`, `_workflow_started`, `_live_display`, `_current_task`)
are collected into a single `StepperState` record and every operation is
translated into an explicit state-passing function.  A unit of work is
represented by its outcome: `Except.ok v` for a normal return of the Python
value `v`, `Except.error e` for a raised exception whose `str()` is `e`.
Purely cosmetic effects (the rich `Live` repaint thread, `time.sleep`) have
no observable effect on the registry and are modelled only through the
`live_display` / `display_started` flags.
-/

/-- Python values that can flow out of a unit of work, as far as the wrapper
inspects them: booleans, ints, strings, tuples, `None`.  Only truthiness,
`str()`, and 2-element-tuple destructuring are ever used by the wrapper. -/
inductive PyValue where
  | pybool (b : Bool)
  | pyint (n : Int)
  | pystr (s : String)
  | pytuple (elems : List PyValue)
  | pynone

/-- Python truthiness (`bool(x)`) for the values above. -/
def PyValue.truthy : PyValue → Bool
  | .pybool b => b
  | .pyint n => decide (n ≠ 0)
  | .pystr s => decide (s ≠ "")
  | .pytuple l => !l.isEmpty
  | .pynone => false

/-- Python `repr(x)` for the values above (used by `str` on tuples). -/
def PyValue.pyRepr : PyValue → String
  | .pybool b => if b then "True" else "False"
  | .pyint n => toString n
  | .pystr s => "'" ++ s ++ "'"
  | .pytuple l =>
      "(" ++ String.intercalate ", " (l.attach.map (fun x => x.1.pyRepr))
          ++ (if l.length = 1 then ",)" else ")")
  | .pynone => "None"
decreasing_by
simp only [PyValue.pytuple.sizeOf_spec]
have h := List.sizeOf_lt_of_mem x.2
omega

/-- Python `str(x)` for the values above. -/
def PyValue.pyStr : PyValue → String
  | .pybool b => if b then "True" else "False"
  | .pyint n => toString n
  | .pystr s => s
  | .pytuple l => PyValue.pyRepr (.pytuple l)
  | .pynone => "None"

/-- One entry of `_tasks[phase]`: the Python 6-tuple
`(increment, task, func, completed, success, message)`.  The function object
is represented by an opaque identity `funcId`. -/
structure TaskEntry where
  increment : Rat
  task : String
  funcId : Nat
  completed : Bool
  success : Bool
  message : String
deriving DecidableEq

/-- A freshly registered, not yet executed entry:
`(increment, task, func, False, False, "")`. -/
def pendingEntry (inc : Rat) (t : String) (fid : Nat) : TaskEntry :=
  ⟨inc, t, fid, false, false, ""⟩

/-- The entry written after an invocation:
`(increment, task, func, True, success, message)`. -/
def completedEntry (inc : Rat) (t : String) (fid : Nat)
    (suc : Bool) (msg : String) : TaskEntry :=
  ⟨inc, t, fid, true, suc, msg⟩

/-- The duplicate test used both by the decorator and the wrapper:
`inc == increment and tsk == task and f == func`. -/
def matchesTask (inc : Rat) (t : String) (fid : Nat) (e : TaskEntry) : Prop :=
  e.increment = inc ∧ e.task = t ∧ e.funcId = fid

instance (inc : Rat) (t : String) (fid : Nat) (e : TaskEntry) :
    Decidable (matchesTask inc t fid e) :=
  inferInstanceAs (Decidable (_ ∧ _ ∧ _))

/-- The linear scan `for i, (...) in enumerate(_tasks[phase])` looking for the
first entry matching `(increment, task, func)`; returns its index. -/
def findTask (inc : Rat) (t : String) (fid : Nat) : List TaskEntry → Option Nat
  | [] => Option.none
  | e :: es =>
      if matchesTask inc t fid e then some 0
      else (findTask inc t fid es).map (· + 1)

/-- `_tasks` is a Python dict (insertion ordered); modelled as an association
list.  `lookupPhase` is `_tasks[phase]` / `phase in _tasks`. -/
def lookupPhase : List (String × List TaskEntry) → String → Option (List TaskEntry)
  | [], _ => Option.none
  | (p, es) :: rest, q => if p = q then some es else lookupPhase rest q

/-- Dict assignment `_tasks[phase] = es`: replaces the value at an existing
key in place, appends a new key at the end (Python dict insertion order). -/
def setPhase : List (String × List TaskEntry) → String → List TaskEntry →
    List (String × List TaskEntry)
  | [], q, es => [(q, es)]
  | (p, es0) :: rest, q, es =>
      if p = q then (p, es) :: rest else (p, es0) :: setPhase rest q es

/-- The module-level mutable state of `super_stepper.py`. -/
structure StepperState where
  tasks : List (String × List TaskEntry)
  failed_tasks : List (String × String × String)
  all_task_messages : List (String × String × String × Bool)
  phase_order : List String
  display_started : Bool
  workflow_started : Bool
  live_display : Bool
  current_task : Option (String × String)
deriving DecidableEq

/-- The state at import time: every container empty, every flag off. -/
def initState : StepperState :=
  ⟨[], [], [], [], false, false, false, Option.none⟩

/-- The task list currently registered under a phase (`_tasks[phase]`,
empty when the key is absent). -/
def taskListOf (st : StepperState) (p : String) : List TaskEntry :=
  (lookupPhase st.tasks p).getD []

/-- `_auto_reset()`: stop the live display and clear `_tasks`,
`_failed_tasks`, `_phase_order`, `_all_task_messages`, `_display_started`.
`_workflow_started` and `_current_task` are not touched here. -/
def autoReset (st : StepperState) : StepperState :=
  { st with live_display := false, tasks := [], failed_tasks := [],
            phase_order := [], all_task_messages := [],
            display_started := false }

/-- `reset()`: `_auto_reset()` then `_workflow_started = False`. -/
def resetState (st : StepperState) : StepperState :=
  { autoReset st with workflow_started := false }

/-- The ensure-phase preamble shared by the decorator body and the wrapper:
`if phase not in _tasks: _tasks[phase] = []` and, nested inside that check,
`if phase not in _phase_order: _phase_order.append(phase)`. -/
def ensurePhase (st : StepperState) (phase : String) : StepperState :=
  match lookupPhase st.tasks phase with
  | some _ => st
  | Option.none =>
      { st with tasks := setPhase st.tasks phase [],
                phase_order := if phase ∈ st.phase_order then st.phase_order
                               else st.phase_order ++ [phase] }

/-- The decoration-time body of `step(phase, task, increment)(func)`
(lines 68-84): ensure the phase, then append a pending entry unless an entry
matching `(increment, task, func)` already exists. -/
def stepDecorator (phase task : String) (increment : Rat) (funcId : Nat)
    (st : StepperState) : StepperState :=
  let st1 := ensurePhase st phase
  let entries := taskListOf st1 phase
  if (findTask increment task funcId entries).isSome then st1
  else { st1 with
         tasks := setPhase st1.tasks phase
                    (entries ++ [pendingEntry increment task funcId]) }

/-- Resolve the descriptor inside the wrapper: the index found by the linear
scan, or (fallback, lines 109-112) the index of a freshly appended pending
entry. -/
def resolveEntry (inc : Rat) (t : String) (fid : Nat)
    (entries : List TaskEntry) : List TaskEntry × Nat :=
  match findTask inc t fid entries with
  | some i => (entries, i)
  | Option.none => (entries ++ [pendingEntry inc t fid], entries.length)

/-- Result normalization of the wrapper's `try` branch (lines 127-135):
a 2-element tuple is split into `(bool(success), str(message) if message
else "")`; anything else becomes `(bool(result), "")`. -/
def normalizeResult (r : PyValue) : Bool × String :=
  match r with
  | .pytuple [a, b] => (a.truthy, if b.truthy then b.pyStr else "")
  | _ => (r.truthy, "")

/-- The `(success, message)` pair produced by one invocation of the wrapped
unit of work: the `try` branch normalizes a returned value, the `except`
branch yields `(False, str(e))`. -/
def resultNorm : Except String PyValue → Bool × String
  | .ok v => normalizeResult v
  | .error e => (false, e)

/-- The auto-reset preamble of the wrapper (lines 91-93): on the first
invocation after NotStarted, `_auto_reset()` then `_workflow_started =
True`. -/
def wStart (st : StepperState) : StepperState :=
  if st.workflow_started then st
  else { autoReset st with workflow_started := true }

/-- One invocation of the instrumented callable `wrapper` (lines 87-175),
parameterized by the outcome of the wrapped unit of work.  Both source
branches (`try` / `except`) perform the same post-processing once
`(success, message)` is fixed: write the completed entry at the resolved
index, append to `_all_task_messages` when the message is non-empty, append
to `_failed_tasks` when not successful, clear `_current_task`, return
`success`.  The transient `_current_task = (phase, task)` set before the
call and cleared after it, and the cosmetic `time.sleep(0.2)`, leave no
trace in the returned state. -/
def wrapper (phase task : String) (increment : Rat) (funcId : Nat)
    (result : Except String PyValue) (st0 : StepperState) :
    StepperState × Bool :=
  let st2 := ensurePhase (wStart st0) phase
  let resolved := resolveEntry increment task funcId (taskListOf st2 phase)
  let st3 := if st2.display_started then st2
             else { st2 with live_display := true, display_started := true }
  let norm := resultNorm result
  let entries2 := resolved.1.set resolved.2
      (completedEntry increment task funcId norm.1 norm.2)
  let st4 := { st3 with
      tasks := setPhase st3.tasks phase entries2,
      all_task_messages :=
        if norm.2 ≠ "" then
          st3.all_task_messages ++ [(phase, task, norm.2, norm.1)]
        else st3.all_task_messages,
      failed_tasks :=
        if norm.1 = false then st3.failed_tasks ++ [(phase, task, norm.2)]
        else st3.failed_tasks,
      current_task := Option.none }
  (st4, norm.1)

/-- `start_workflow()`: mark the workflow started; start the display when it
is not yet started and tasks exist. -/
def startWorkflow (st : StepperState) : StepperState :=
  let st1 := { st with workflow_started := true }
  if !st1.display_started ∧ st1.tasks ≠ [] then
    { st1 with live_display := true, display_started := true }
  else st1

/-- The intra-phase ordering used by `sorted(_tasks[phase], key=lambda x:
x[0])`: compare the `increment` sort keys. -/
def taskKeyLE (a b : TaskEntry) : Prop := a.increment ≤ b.increment

instance : DecidableRel taskKeyLE :=
  fun a b => inferInstanceAs (Decidable (a.increment ≤ b.increment))

instance : IsTotal TaskEntry taskKeyLE :=
  ⟨fun a b => le_total a.increment b.increment⟩

instance : IsTrans TaskEntry taskKeyLE :=
  ⟨fun _ _ _ hab hbc => le_trans hab hbc⟩

/-- `sorted(_tasks[phase], key=lambda x: x[0])`: Python's `sorted` is a
stable sort; any stable sort computes the same list, here insertion sort. -/
def sortTasks (l : List TaskEntry) : List TaskEntry :=
  List.insertionSort taskKeyLE l

/-- The task sequence rendered for one phase by `_generate_display`. -/
def displayTasks (st : StepperState) (p : String) : List TaskEntry :=
  sortTasks (taskListOf st p)

/-- The structured content of `_generate_display` (lines 201-246): phases are
walked in `_phase_order`, phases with an empty task list are skipped, and each
rendered phase shows its tasks sorted by increment.  Glyph and style choices
per task line are presentation and carry no registry information beyond the
entry itself. -/
def generateDisplay (st : StepperState) : List (String × List TaskEntry) :=
  st.phase_order.foldr
    (fun p acc => if taskListOf st p = [] then acc
                  else (p, displayTasks st p) :: acc) []

/-- All entries walked by the counting loop of `summary()` (lines 269-277):
phases in `_phase_order`, entries in registry order. -/
def allEntries (st : StepperState) : List TaskEntry :=
  st.phase_order.foldr (fun p acc => taskListOf st p ++ acc) []

/-- `total_tasks` computed by `summary()`. -/
def totalTasks (st : StepperState) : Nat :=
  (allEntries st).length

/-- `completed_tasks` computed by `summary()`. -/
def completedTasks (st : StepperState) : Nat :=
  ((allEntries st).filter (fun e => e.completed)).length

/-- `failed_tasks` (the counter) computed by `summary()`: completed and not
successful. -/
def failedCount (st : StepperState) : Nat :=
  ((allEntries st).filter (fun e => e.completed && !e.success)).length

/-- The lines printed by `summary()` (lines 279-303): one aggregate status
line — failure aggregate, success aggregate, or the no-tasks indicator —
followed by the blank line of the final `_console.print()`. -/
def summaryLines (st : StepperState) : List String :=
  (if 0 < totalTasks st then
    (if 0 < failedCount st then
      ["⚠️  " ++ toString (failedCount st) ++ " of "
        ++ toString (totalTasks st) ++ " tasks failed"]
     else
      ["✅ " ++ toString (totalTasks st) ++ " of "
        ++ toString (totalTasks st) ++ " tasks completed successfully"])
   else ["  No tasks found"]) ++ [""]

/-- `summary()` (lines 257-306): stop the live display, print the aggregate
lines, set `_workflow_started = False`.  Returns the new state and the
printed lines. -/
def summary (st : StepperState) : StepperState × List String :=
  ({ st with live_display := false, workflow_started := false },
   summaryLines st)

/-! ### Registry helper lemmas -/

theorem lookupPhase_setPhase_self (ts : List (String × List TaskEntry))
    (p : String) (es : List TaskEntry) :
    lookupPhase (setPhase ts p es) p = some es := by
  induction ts with
  | nil => simp [setPhase, lookupPhase]
  | cons hd tl ih =>
      obtain ⟨q, es0⟩ := hd
      by_cases h : q = p
      · subst h; simp [setPhase, lookupPhase]
      · simp [setPhase, lookupPhase, h, ih]

theorem lookupPhase_setPhase_ne (ts : List (String × List TaskEntry))
    (p q : String) (es : List TaskEntry) (h : q ≠ p) :
    lookupPhase (setPhase ts p es) q = lookupPhase ts q := by
  induction ts with
  | nil => simp [setPhase, lookupPhase, Ne.symm h]
  | cons hd tl ih =>
      obtain ⟨r, es0⟩ := hd
      by_cases hr : r = p
      · subst hr
        simp [setPhase, lookupPhase, Ne.symm h]
      · by_cases hq : r = q
        · subst hq; simp [setPhase, lookupPhase, h]
        · simp [setPhase, lookupPhase, hr, hq, ih]

theorem setPhase_of_none (ts : List (String × List TaskEntry))
    (p : String) (es : List TaskEntry) (h : lookupPhase ts p = Option.none) :
    setPhase ts p es = ts ++ [(p, es)] := by
  induction ts with
  | nil => simp [setPhase]
  | cons hd tl ih =>
      obtain ⟨q, es0⟩ := hd
      by_cases hq : q = p
      · subst hq; simp [lookupPhase] at h
      · simp only [lookupPhase, if_neg hq] at h
        simp [setPhase, hq, ih h]

theorem findTask_cons (inc : Rat) (t : String) (fid : Nat) (e : TaskEntry)
    (es : List TaskEntry) :
    findTask inc t fid (e :: es) =
      (if matchesTask inc t fid e then some 0
       else (findTask inc t fid es).map (· + 1)) := rfl

theorem findTask_some (inc : Rat) (t : String) (fid : Nat) :
    ∀ (l : List TaskEntry) (i : Nat), findTask inc t fid l = some i →
      ∃ h : i < l.length, matchesTask inc t fid (l.get ⟨i, h⟩) := by
  intro l
  induction l with
  | nil => intro i h; simp [findTask] at h
  | cons e es ih =>
      intro i h
      by_cases hm : matchesTask inc t fid e
      · rw [findTask_cons, if_pos hm] at h
        injection h with h
        subst h
        exact ⟨Nat.succ_pos _, hm⟩
      · rw [findTask_cons, if_neg hm] at h
        rw [Option.map_eq_some'] at h
        obtain ⟨j, hj, hji⟩ := h
        obtain ⟨hlt, hmt⟩ := ih j hj
        subst hji
        exact ⟨Nat.succ_lt_succ hlt, hmt⟩

theorem resolveEntry_idx_lt (inc : Rat) (t : String) (fid : Nat)
    (es : List TaskEntry) :
    (resolveEntry inc t fid es).2 < (resolveEntry inc t fid es).1.length := by
  unfold resolveEntry
  cases h : findTask inc t fid es with
  | none => simp
  | some i =>
      obtain ⟨hlt, _⟩ := findTask_some inc t fid es i h
      simpa using hlt

theorem mem_set_self {α : Type _} :
    ∀ (l : List α) (i : Nat) (v : α), i < l.length → v ∈ l.set i v
  | a :: _, 0, v, _ => by simp
  | a :: as, i + 1, v, h => by
      simp only [List.set]
      exact List.mem_cons_of_mem _
        (mem_set_self as i v (by simpa using Nat.lt_of_succ_lt_succ h))
  | [], i, v, h => by simp at h

/-! ### Projection lemmas for the wrapper pipeline stages -/

theorem ensurePhase_failed (st : StepperState) (p : String) :
    (ensurePhase st p).failed_tasks = st.failed_tasks := by
  unfold ensurePhase; cases lookupPhase st.tasks p <;> rfl

theorem ensurePhase_all_msgs (st : StepperState) (p : String) :
    (ensurePhase st p).all_task_messages = st.all_task_messages := by
  unfold ensurePhase; cases lookupPhase st.tasks p <;> rfl

theorem ensurePhase_workflow (st : StepperState) (p : String) :
    (ensurePhase st p).workflow_started = st.workflow_started := by
  unfold ensurePhase; cases lookupPhase st.tasks p <;> rfl

theorem ensurePhase_phase_order_of_mem (st : StepperState) (p : String)
    (h : p ∈ st.phase_order) :
    (ensurePhase st p).phase_order = st.phase_order := by
  unfold ensurePhase
  cases lookupPhase st.tasks p with
  | none => simp [h]
  | some _ => rfl

theorem ensurePhase_taskListOf_ne (st : StepperState) (p q : String)
    (h : q ≠ p) : taskListOf (ensurePhase st p) q = taskListOf st q := by
  unfold ensurePhase
  cases hl : lookupPhase st.tasks p with
  | none => simp [taskListOf, lookupPhase_setPhase_ne _ _ _ _ h]
  | some _ => rfl

theorem ensurePhase_taskListOf_self (st : StepperState) (p : String) :
    taskListOf (ensurePhase st p) p = taskListOf st p := by
  unfold ensurePhase
  cases hl : lookupPhase st.tasks p with
  | none => simp [taskListOf, lookupPhase_setPhase_self, hl]
  | some es => rfl

theorem wStart_of_started (st : StepperState)
    (hw : st.workflow_started = true) : wStart st = st := by
  simp [wStart, hw]

/-- The resolved task list with the completed entry written at the resolved
index: the invoked phase's registry value after one invocation. -/
def updatedEntries (inc : Rat) (t : String) (fid : Nat)
    (norm : Bool × String) (entries : List TaskEntry) : List TaskEntry :=
  (resolveEntry inc t fid entries).1.set (resolveEntry inc t fid entries).2
    (completedEntry inc t fid norm.1 norm.2)

/-- Closed form of the state after one wrapper invocation. -/
theorem wrapper_fst_eq (phase task : String) (increment : Rat) (funcId : Nat)
    (result : Except String PyValue) (st0 : StepperState) :
    (wrapper phase task increment funcId result st0).1 =
      { tasks := setPhase (ensurePhase (wStart st0) phase).tasks phase
          (updatedEntries increment task funcId (resultNorm result)
            (taskListOf (ensurePhase (wStart st0) phase) phase)),
        failed_tasks :=
          if (resultNorm result).1 = false then
            (ensurePhase (wStart st0) phase).failed_tasks
              ++ [(phase, task, (resultNorm result).2)]
          else (ensurePhase (wStart st0) phase).failed_tasks,
        all_task_messages :=
          if (resultNorm result).2 ≠ "" then
            (ensurePhase (wStart st0) phase).all_task_messages
              ++ [(phase, task, (resultNorm result).2, (resultNorm result).1)]
          else (ensurePhase (wStart st0) phase).all_task_messages,
        phase_order := (ensurePhase (wStart st0) phase).phase_order,
        display_started := true,
        workflow_started := (ensurePhase (wStart st0) phase).workflow_started,
        live_display :=
          if (ensurePhase (wStart st0) phase).display_started = true then
            (ensurePhase (wStart st0) phase).live_display
          else true,
        current_task := Option.none } := by
  simp only [wrapper, updatedEntries]
  split
  · rename_i hd
    simp [hd]
  · rename_i hd
    simp at hd
    simp [hd]

/-- The returned boolean of one invocation is the normalized success bit
(`return success` / `return False`): the wrapper always returns a boolean,
never re-raising. -/
theorem wrapper_ret (phase task : String) (increment : Rat) (funcId : Nat)
    (result : Except String PyValue) (st0 : StepperState) :
    (wrapper phase task increment funcId result st0).2 =
      (resultNorm result).1 := rfl

theorem wrapper_taskListOf_self (phase task : String) (increment : Rat)
    (funcId : Nat) (result : Except String PyValue) (st0 : StepperState) :
    taskListOf (wrapper phase task increment funcId result st0).1 phase =
      updatedEntries increment task funcId (resultNorm result)
        (taskListOf (ensurePhase (wStart st0) phase) phase) := by
  rw [wrapper_fst_eq]
  simp [taskListOf, lookupPhase_setPhase_self]

theorem wrapper_taskListOf_ne (phase task : String) (increment : Rat)
    (funcId : Nat) (result : Except String PyValue) (st0 : StepperState)
    (q : String) (h : q ≠ phase) :
    taskListOf (wrapper phase task increment funcId result st0).1 q =
      taskListOf (ensurePhase (wStart st0) phase) q := by
  rw [wrapper_fst_eq]
  simp [taskListOf, lookupPhase_setPhase_ne _ _ _ _ h]

theorem wrapper_phase_order (phase task : String) (increment : Rat)
    (funcId : Nat) (result : Except String PyValue) (st0 : StepperState) :
    (wrapper phase task increment funcId result st0).1.phase_order =
      (ensurePhase (wStart st0) phase).phase_order := by
  rw [wrapper_fst_eq]

theorem wrapper_failed (phase task : String) (increment : Rat)
    (funcId : Nat) (result : Except String PyValue) (st0 : StepperState) :
    (wrapper phase task increment funcId result st0).1.failed_tasks =
      (if (resultNorm result).1 = false then
        (wStart st0).failed_tasks ++ [(phase, task, (resultNorm result).2)]
       else (wStart st0).failed_tasks) := by
  rw [wrapper_fst_eq]
  simp [ensurePhase_failed]

theorem wrapper_workflow (phase task : String) (increment : Rat)
    (funcId : Nat) (result : Except String PyValue) (st0 : StepperState) :
    (wrapper phase task increment funcId result st0).1.workflow_started =
      (wStart st0).workflow_started := by
  rw [wrapper_fst_eq]
  simp [ensurePhase_workflow]

theorem resolveEntry_eq_some (inc : Rat) (t : String) (fid : Nat)
    (entries : List TaskEntry) (i : Nat)
    (hf : findTask inc t fid entries = some i) :
    resolveEntry inc t fid entries = (entries, i) := by
  unfold resolveEntry; rw [hf]

theorem resolveEntry_eq_none (inc : Rat) (t : String) (fid : Nat)
    (entries : List TaskEntry)
    (hf : findTask inc t fid entries = Option.none) :
    resolveEntry inc t fid entries =
      (entries ++ [pendingEntry inc t fid], entries.length) := by
  unfold resolveEntry; rw [hf]

/-- The completed entry written by an invocation is present in the updated
task list. -/
theorem updatedEntries_mem (inc : Rat) (t : String) (fid : Nat)
    (norm : Bool × String) (entries : List TaskEntry) :
    completedEntry inc t fid norm.1 norm.2 ∈
      updatedEntries inc t fid norm entries :=
  mem_set_self _ _ _ (resolveEntry_idx_lt inc t fid entries)

/-- An element of a list survives appending a fresh element and then
overwriting that appended position. -/
theorem mem_set_append_last {α : Type _} (l : List α) (a v e : α)
    (he : e ∈ l) : e ∈ (l ++ [a]).set l.length v := by
  induction l with
  | nil => simp at he
  | cons b l ih =>
      rcases List.mem_cons.mp he with rfl | hi
      · simp [List.set]
      · simpa [List.set] using Or.inr (ih hi)

theorem getElem_mem_set_of_ne {α : Type _} (L : List α) (idx j : Nat) (v : α)
    (hj : j < L.length) (hne : j ≠ idx) : L[j] ∈ L.set idx v := by
  have hj2 : j < (L.set idx v).length := by simpa using hj
  have heq : (L.set idx v)[j] = L[j] := List.getElem_set_ne (Ne.symm hne) hj2
  exact heq ▸ List.getElem_mem hj2

/-- Invocation-time update preserves every already-completed entry: an entry
that was completed is still present, with the same identity, and still
completed. -/
theorem updatedEntries_preserves (inc : Rat) (t : String) (fid : Nat)
    (norm : Bool × String) (entries : List TaskEntry) (e : TaskEntry)
    (he : e ∈ entries) (hc : e.completed = true) :
    ∃ e' ∈ updatedEntries inc t fid norm entries,
      e'.increment = e.increment ∧ e'.task = e.task ∧
      e'.funcId = e.funcId ∧ e'.completed = true := by
  obtain ⟨j, hj, hje⟩ := List.getElem_of_mem he
  cases hf : findTask inc t fid entries with
  | some i =>
      have hU : updatedEntries inc t fid norm entries =
          entries.set i (completedEntry inc t fid norm.1 norm.2) := by
        unfold updatedEntries
        rw [resolveEntry_eq_some inc t fid entries i hf]
      by_cases hij : j = i
      · subst hij
        obtain ⟨hlt, hmt⟩ := findTask_some inc t fid entries j hf
        have he2 : entries.get ⟨j, hlt⟩ = e := hje
        rw [he2] at hmt
        obtain ⟨h1, h2, h3⟩ := hmt
        refine ⟨completedEntry inc t fid norm.1 norm.2, ?_, h1.symm, h2.symm,
          h3.symm, rfl⟩
        rw [hU]
        exact mem_set_self _ _ _ hlt
      · refine ⟨e, ?_, rfl, rfl, rfl, hc⟩
        rw [hU]
        have hmem := getElem_mem_set_of_ne entries i j
          (completedEntry inc t fid norm.1 norm.2) hj hij
        rwa [hje] at hmem
  | none =>
      have hU : updatedEntries inc t fid norm entries =
          (entries ++ [pendingEntry inc t fid]).set entries.length
            (completedEntry inc t fid norm.1 norm.2) := by
        unfold updatedEntries
        rw [resolveEntry_eq_none inc t fid entries hf]
      refine ⟨e, ?_, rfl, rfl, rfl, hc⟩
      rw [hU]
      exact mem_set_append_last entries (pendingEntry inc t fid)
        (completedEntry inc t fid norm.1 norm.2) e he

/-! ### Sorting: ascending by increment, stable -/

theorem sortTasks_pairwise (l : List TaskEntry) :
    List.Pairwise taskKeyLE (sortTasks l) :=
  List.sorted_insertionSort taskKeyLE l

theorem filter_orderedInsert_key (k : Rat) (e : TaskEntry)
    (l : List TaskEntry) :
    (List.orderedInsert taskKeyLE e l).filter
        (fun x => decide (x.increment = k)) =
      (if e.increment = k then
        e :: l.filter (fun x => decide (x.increment = k))
       else l.filter (fun x => decide (x.increment = k))) := by
  induction l with
  | nil =>
      by_cases hk : e.increment = k <;> simp [List.orderedInsert, hk]
  | cons b l ih =>
      by_cases hle : taskKeyLE e b
      · by_cases hk : e.increment = k <;>
          simp [List.orderedInsert, hle, hk]
      · have hlt : b.increment < e.increment := by
          simpa [taskKeyLE, not_le] using hle
        by_cases hk : e.increment = k
        · have hbk : ¬ b.increment = k := by
            rw [← hk]; exact ne_of_lt hlt
          simp [List.orderedInsert, hle, hk, hbk, ih]
        · by_cases hbk : b.increment = k <;>
            simp [List.orderedInsert, hle, hk, hbk, ih]

/-- Stability of the intra-phase sort: entries with any fixed sort key keep
their relative registration order. -/
theorem sortTasks_filter_key (l : List TaskEntry) (k : Rat) :
    (sortTasks l).filter (fun x => decide (x.increment = k)) =
      l.filter (fun x => decide (x.increment = k)) := by
  induction l with
  | nil => rfl
  | cons e l ih =>
      show (List.orderedInsert taskKeyLE e (sortTasks l)).filter _ = _
      rw [filter_orderedInsert_key]
      by_cases hk : e.increment = k <;> simp [hk, ih]

/-! ### Display and summary helper lemmas -/

theorem foldr_display_fst (g : String → List TaskEntry) :
    ∀ ps : List String,
      (ps.foldr (fun p acc => if g p = [] then acc
          else (p, sortTasks (g p)) :: acc) []).map Prod.fst =
        ps.filter (fun p => decide (g p ≠ [])) := by
  intro ps
  induction ps with
  | nil => rfl
  | cons p ps ih =>
      by_cases hp : g p = [] <;> simp [hp, ih]

/-- The renderer walks phases exactly in `_phase_order` (restricted to
phases that currently have tasks). -/
theorem generateDisplay_map_fst (st : StepperState) :
    (generateDisplay st).map Prod.fst =
      st.phase_order.filter (fun p => decide (taskListOf st p ≠ [])) :=
  foldr_display_fst (taskListOf st) st.phase_order

theorem foldr_append_nil (g : String → List TaskEntry) :
    ∀ ps : List String, (∀ p ∈ ps, g p = []) →
      ps.foldr (fun p acc => g p ++ acc) [] = [] := by
  intro ps
  induction ps with
  | nil => intro _; rfl
  | cons p ps ih =>
      intro h
      simp only [List.foldr_cons, h p (List.mem_cons_self p ps)]
      exact ih (fun q hq => h q (List.mem_cons_of_mem p hq))

theorem allEntries_eq_nil (st : StepperState)
    (h : ∀ p ∈ st.phase_order, taskListOf st p = []) :
    allEntries st = [] :=
  foldr_append_nil (taskListOf st) st.phase_order h

theorem failedCount_le_total (st : StepperState) :
    failedCount st ≤ totalTasks st :=
  List.length_filter_le _ _

theorem setPhase_append_self (ts : List (String × List TaskEntry))
    (p : String) (es es' : List TaskEntry)
    (h : lookupPhase ts p = Option.none) :
    setPhase (ts ++ [(p, es)]) p es' = ts ++ [(p, es')] := by
  induction ts with
  | nil => simp [setPhase]
  | cons hd tl ih =>
      obtain ⟨q, es0⟩ := hd
      by_cases hq : q = p
      · subst hq; simp [lookupPhase] at h
      · simp only [lookupPhase, if_neg hq] at h
        simp [setPhase, hq, ih h]

/-! ### Concrete run states used by witnesses and counterexamples -/

/-- The outcome of a unit of work returning `(False, "X")`. -/
def failX : Except String PyValue :=
  Except.ok (PyValue.pytuple [PyValue.pybool false, PyValue.pystr "X"])

/-- State after one failing invocation of task `Task` in phase `setup`. -/
def failOneState : StepperState :=
  (wrapper "setup" "Task" 1 0 failX initState).1

/-- State after one failing invocation of task `t` in phase `p`. -/
def failOnceState : StepperState :=
  (wrapper "p" "t" 1 0 failX initState).1

/-- State after invoking the same failing task twice in the same run (the
first invocation starts the workflow; no reset happens in between). -/
def failTwiceState : StepperState :=
  (wrapper "p" "t" 1 0 failX failOnceState).1

/-- State after one successful invocation of task `t1` in phase `alpha`. -/
def oneDoneState : StepperState :=
  (wrapper "alpha" "t1" 1 0 (Except.ok (PyValue.pybool true)) initState).1

/-! ### Claims -/

/-- C1: a unit of work that raises a fault with text `e` is recorded as
completed with `success = false` and `message = e`; the wrapper swallows the
fault (it is total and returns a boolean) and returns `false`. -/
theorem c1_fault_swallowed (st0 : StepperState) (phase task : String)
    (increment : Rat) (funcId : Nat) (e : String) :
    (wrapper phase task increment funcId (Except.error e) st0).2 = false ∧
    completedEntry increment task funcId false e ∈
      taskListOf (wrapper phase task increment funcId (Except.error e) st0).1
        phase := by
  refine ⟨rfl, ?_⟩
  rw [wrapper_taskListOf_self]
  exact updatedEntries_mem increment task funcId
    (resultNorm (Except.error e)) _

/-- C2: when the unit of work returns normally, the recorded
`(success, message)` is determined by the result's shape — a boolean gives
its truthiness with an empty message, a 2-element tuple gives the first
element's truthiness and the string form of the second (empty if falsy),
any other shape gives the truthiness of the whole value with an empty
message — and the wrapper returns that success boolean. -/
theorem c2_result_shape_recorded (st0 : StepperState) (phase task : String)
    (increment : Rat) (funcId : Nat) (r : PyValue) :
    match r with
    | PyValue.pybool b =>
        (wrapper phase task increment funcId (Except.ok r) st0).2 = b ∧
        completedEntry increment task funcId b "" ∈
          taskListOf
            (wrapper phase task increment funcId (Except.ok r) st0).1 phase
    | PyValue.pytuple [a, b] =>
        (wrapper phase task increment funcId (Except.ok r) st0).2 =
          a.truthy ∧
        completedEntry increment task funcId a.truthy
            (if b.truthy then b.pyStr else "") ∈
          taskListOf
            (wrapper phase task increment funcId (Except.ok r) st0).1 phase
    | _ =>
        (wrapper phase task increment funcId (Except.ok r) st0).2 =
          r.truthy ∧
        completedEntry increment task funcId r.truthy "" ∈
          taskListOf
            (wrapper phase task increment funcId (Except.ok r) st0).1 phase
    := by
  cases r with
  | pybool b =>
      refine ⟨rfl, ?_⟩
      rw [wrapper_taskListOf_self]
      exact updatedEntries_mem _ _ _ _ _
  | pyint n =>
      refine ⟨rfl, ?_⟩
      rw [wrapper_taskListOf_self]
      exact updatedEntries_mem _ _ _ _ _
  | pystr s =>
      refine ⟨rfl, ?_⟩
      rw [wrapper_taskListOf_self]
      exact updatedEntries_mem _ _ _ _ _
  | pynone =>
      refine ⟨rfl, ?_⟩
      rw [wrapper_taskListOf_self]
      exact updatedEntries_mem _ _ _ _ _
  | pytuple l =>
      rcases l with _ | ⟨a, _ | ⟨b, _ | ⟨c, rest⟩⟩⟩
      all_goals refine ⟨rfl, ?_⟩
      all_goals rw [wrapper_taskListOf_self]
      all_goals exact updatedEntries_mem _ _ _ _ _

/-- C3: during a run (workflow started), phases render in first-registration
order: an invocation appends the phase to `_phase_order` only when it is
newly seen and never reorders it, and the renderer walks exactly
`_phase_order` (restricted to phases that have tasks), so execution order
never changes phase order. -/
theorem c3_phase_render_order (st : StepperState) (phase task : String)
    (increment : Rat) (funcId : Nat) (res : Except String PyValue)
    (hw : st.workflow_started = true)
    (hs : lookupPhase st.tasks phase = Option.none ∨
      phase ∈ st.phase_order) :
    (wrapper phase task increment funcId res st).1.phase_order =
      (if phase ∈ st.phase_order then st.phase_order
       else st.phase_order ++ [phase]) ∧
    (generateDisplay (wrapper phase task increment funcId res st).1).map
        Prod.fst =
      (wrapper phase task increment funcId res st).1.phase_order.filter
        (fun p => decide
          (taskListOf (wrapper phase task increment funcId res st).1 p
            ≠ [])) := by
  refine ⟨?_, generateDisplay_map_fst _⟩
  rw [wrapper_phase_order, wStart_of_started st hw]
  unfold ensurePhase
  rcases hs with hn | hm
  · rw [hn]
  · cases hl : lookupPhase st.tasks phase with
    | none => simp [hm]
    | some _ => simp [hm]

/-- C3 witness: a second invocation in the already-seen phase `alpha` leaves
the phase order unchanged and the display walks it. -/
theorem c3_phase_render_order_witness :
    (wrapper "alpha" "t2" 2 1 (Except.ok (PyValue.pybool true))
      oneDoneState).1.phase_order =
      (if "alpha" ∈ oneDoneState.phase_order then oneDoneState.phase_order
       else oneDoneState.phase_order ++ ["alpha"]) ∧
    (generateDisplay (wrapper "alpha" "t2" 2 1
        (Except.ok (PyValue.pybool true)) oneDoneState).1).map Prod.fst =
      (wrapper "alpha" "t2" 2 1 (Except.ok (PyValue.pybool true))
        oneDoneState).1.phase_order.filter
        (fun p => decide
          (taskListOf (wrapper "alpha" "t2" 2 1
            (Except.ok (PyValue.pybool true)) oneDoneState).1 p ≠ [])) :=
  c3_phase_render_order oneDoneState "alpha" "t2" 2 1
    (Except.ok (PyValue.pybool true)) (by decide) (Or.inr (by decide))

/-- C7: for every phase and registry state, the rendered task sequence is
non-decreasing in the `order` key, and entries with any equal key keep their
relative registration order (the sort is stable). -/
theorem c7_display_sorted_stable (st : StepperState) (p : String) :
    List.Pairwise taskKeyLE (displayTasks st p) ∧
    ∀ k : Rat,
      (displayTasks st p).filter (fun e => decide (e.increment = k)) =
        (taskListOf st p).filter (fun e => decide (e.increment = k)) :=
  ⟨sortTasks_pairwise _, fun k => sortTasks_filter_key _ k⟩

/-- C8: within a run (workflow started), a descriptor already marked
completed stays present, with the same identity, and still completed after
any further wrapper invocation (of that task or any other); only a reset
destroys descriptors. -/
theorem c8_completed_never_regresses (st : StepperState)
    (phase task : String) (increment : Rat) (funcId : Nat)
    (res : Except String PyValue) (q : String) (e : TaskEntry)
    (hw : st.workflow_started = true)
    (he : e ∈ taskListOf st q) (hc : e.completed = true) :
    ∃ e' ∈ taskListOf (wrapper phase task increment funcId res st).1 q,
      e'.increment = e.increment ∧ e'.task = e.task ∧
      e'.funcId = e.funcId ∧ e'.completed = true := by
  by_cases hq : q = phase
  · subst hq
    rw [wrapper_taskListOf_self, wStart_of_started st hw,
      ensurePhase_taskListOf_self]
    exact updatedEntries_preserves _ _ _ _ _ e he hc
  · rw [wrapper_taskListOf_ne phase task increment funcId res st q hq,
      wStart_of_started st hw, ensurePhase_taskListOf_ne st phase q hq]
    exact ⟨e, he, rfl, rfl, rfl, hc⟩

/-- C8 witness: after completing `t1` in phase `alpha`, invoking a different
task `t2` in phase `beta` leaves the completed `t1` descriptor completed. -/
theorem c8_completed_never_regresses_witness :
    ∃ e' ∈ taskListOf (wrapper "beta" "t2" 1 1
        (Except.ok (PyValue.pybool false)) oneDoneState).1 "alpha",
      e'.increment = (completedEntry 1 "t1" 0 true "").increment ∧
      e'.task = (completedEntry 1 "t1" 0 true "").task ∧
      e'.funcId = (completedEntry 1 "t1" 0 true "").funcId ∧
      e'.completed = true :=
  c8_completed_never_regresses oneDoneState "beta" "t2" 1 1
    (Except.ok (PyValue.pybool false)) "alpha"
    (completedEntry 1 "t1" 0 true "") (by decide) (by decide) (by decide)

/-- C9: on an empty registry (no tasks in any phase), `summary()` prints the
no-tasks indicator line and terminates normally (the counting path performs
no division at all), then resets the workflow flag. -/
theorem c9_summary_empty_registry (st : StepperState)
    (h : ∀ p ∈ st.phase_order, taskListOf st p = []) :
    (summary st).2 = ["  No tasks found", ""] ∧
    (summary st).1.workflow_started = false := by
  refine ⟨?_, rfl⟩
  have h0 : totalTasks st = 0 := by
    unfold totalTasks
    rw [allEntries_eq_nil st h]
    rfl
  show summaryLines st = _
  unfold summaryLines
  rw [h0]
  simp

/-- C9 witness: the import-time state has no tasks and gets the no-tasks
line. -/
theorem c9_summary_empty_registry_witness :
    (summary initState).2 = ["  No tasks found", ""] ∧
    (summary initState).1.workflow_started = false :=
  c9_summary_empty_registry initState (by simp [initState])

/-- C10: `summary()` leaves the registry contents, phase order, failure log
and all-messages log (and the current-task marker and display-started flag)
unchanged; it only clears the live-display handle and the workflow-started
flag. -/
theorem c10_summary_frame (st : StepperState) :
    (summary st).1.tasks = st.tasks ∧
    (summary st).1.phase_order = st.phase_order ∧
    (summary st).1.failed_tasks = st.failed_tasks ∧
    (summary st).1.all_task_messages = st.all_task_messages ∧
    (summary st).1.current_task = st.current_task ∧
    (summary st).1.display_started = st.display_started ∧
    (summary st).1.live_display = false ∧
    (summary st).1.workflow_started = false :=
  ⟨rfl, rfl, rfl, rfl, rfl, rfl, rfl, rfl⟩

/-- C4 counterexample: after one failing task with message `X`, the complete
output of `summary()` is the aggregate line plus a blank line; no line
carries the failure's message (no character `X` occurs anywhere), so no
numbered per-failure entry is printed. -/
theorem c4_counterexample :
    failedCount failOneState = 1 ∧
    (summary failOneState).2 = ["⚠️  1 of 1 tasks failed", ""] ∧
    ((summary failOneState).2.all (fun l => !(l.data.contains 'X')))
      = true := by
  decide

/-- C4 (amended): for every registry state with at least one failed task,
`summary()` prints exactly one aggregate line reporting N of M tasks failed
(plus a trailing blank line) and sets the workflow flag back to not-started;
it does not list the individual failures. -/
theorem c4_summary_aggregate_only (st : StepperState)
    (h : 0 < failedCount st) :
    (summary st).2 = ["⚠️  " ++ toString (failedCount st) ++ " of "
        ++ toString (totalTasks st) ++ " tasks failed", ""] ∧
    (summary st).1.workflow_started = false := by
  refine ⟨?_, rfl⟩
  have hT : 0 < totalTasks st := lt_of_lt_of_le h (failedCount_le_total st)
  show summaryLines st = _
  unfold summaryLines
  rw [if_pos hT, if_pos h]
  rfl

/-- C4 witness: the amended statement at the one-failed-task state. -/
theorem c4_summary_aggregate_only_witness :
    (summary failOneState).2 = ["⚠️  " ++ toString (failedCount failOneState)
        ++ " of " ++ toString (totalTasks failOneState) ++ " tasks failed",
      ""] ∧
    (summary failOneState).1.workflow_started = false :=
  c4_summary_aggregate_only failOneState (by decide)

/-- C5 counterexample: applying the step decorator to the import-time state
already changes both the task mapping and the phase order, before any
invocation. -/
theorem c5_counterexample :
    (stepDecorator "setup" "Initialize" 1 0 initState).tasks
      ≠ initState.tasks ∧
    (stepDecorator "setup" "Initialize" 1 0 initState).phase_order
      ≠ initState.phase_order := by
  decide

/-- C5 (amended): the decorator registers eagerly at decoration time — for a
fresh phase it appends the phase and a pending descriptor to the registry —
but the first invocation from a not-started workflow auto-resets the
registry, destroying decoration-time descriptors, and the wrapper's
invocation-time fallback re-creates the invoked descriptor, so the registry
after that first invocation holds exactly the invoked task. -/
theorem c5_decoration_time_registration (st : StepperState)
    (phase task : String) (increment : Rat) (funcId : Nat)
    (res : Except String PyValue)
    (hl : lookupPhase st.tasks phase = Option.none)
    (hp : phase ∉ st.phase_order)
    (hw : st.workflow_started = false) :
    (stepDecorator phase task increment funcId st).tasks =
      st.tasks ++ [(phase, [pendingEntry increment task funcId])] ∧
    (stepDecorator phase task increment funcId st).phase_order =
      st.phase_order ++ [phase] ∧
    (wrapper phase task increment funcId res st).1.tasks =
      [(phase, [completedEntry increment task funcId
        (resultNorm res).1 (resultNorm res).2])] := by
  have hEP : ensurePhase st phase =
      { st with tasks := setPhase st.tasks phase [],
                phase_order := st.phase_order ++ [phase] } := by
    unfold ensurePhase
    rw [hl]
    simp [hp]
  have hTL : taskListOf (ensurePhase st phase) phase = [] := by
    rw [hEP]
    simp [taskListOf, lookupPhase_setPhase_self]
  refine ⟨?_, ?_, ?_⟩
  · simp only [stepDecorator]
    rw [hTL]
    simp only [findTask, Option.isSome, Bool.false_eq_true, if_false,
      List.nil_append]
    rw [hEP]
    simp only []
    rw [setPhase_of_none st.tasks phase [] hl,
      setPhase_append_self st.tasks phase [] _ hl]
  · simp only [stepDecorator]
    rw [hTL]
    simp only [findTask, Option.isSome, Bool.false_eq_true, if_false]
    rw [hEP]
  · rw [wrapper_fst_eq]
    have hws : wStart st = { autoReset st with workflow_started := true } := by
      simp [wStart, hw]
    rw [hws]
    simp [autoReset, ensurePhase, lookupPhase, setPhase, taskListOf,
      updatedEntries, resolveEntry, findTask, pendingEntry, completedEntry]

/-- C5 witness: the amended statement at the import-time state. -/
theorem c5_decoration_time_registration_witness :
    (stepDecorator "setup" "Init" 1 0 initState).tasks =
      initState.tasks ++ [("setup", [pendingEntry 1 "Init" 0])] ∧
    (stepDecorator "setup" "Init" 1 0 initState).phase_order =
      initState.phase_order ++ ["setup"] ∧
    (wrapper "setup" "Init" 1 0 (Except.ok (PyValue.pybool true))
      initState).1.tasks =
      [("setup", [completedEntry 1 "Init" 0
        (resultNorm (Except.ok (PyValue.pybool true))).1
        (resultNorm (Except.ok (PyValue.pybool true))).2])] :=
  c5_decoration_time_registration initState "setup" "Init" 1 0
    (Except.ok (PyValue.pybool true)) (by decide) (by decide) (by decide)

/-- C6 counterexample: invoking the same failing task twice within one run
(the workflow flag stays on, so no reset intervenes) appends two FailureLog
entries for the same task. -/
theorem c6_counterexample :
    failTwiceState.failed_tasks = [("p", "t", "X"), ("p", "t", "X")] ∧
    failTwiceState.workflow_started = true := by
  decide

/-- C6 (amended): a single failing invocation appends exactly one FailureLog
entry `(phase, task, message)`; a task invoked several times in one run
however appears once per failing invocation, so the at-most-once-per-run
bound does not hold for repeated invocations. -/
theorem c6_single_failure_single_append (st : StepperState)
    (phase task : String) (increment : Rat) (funcId : Nat)
    (res : Except String PyValue)
    (hw : st.workflow_started = true)
    (hf : (resultNorm res).1 = false) :
    (wrapper phase task increment funcId res st).1.failed_tasks =
      st.failed_tasks ++ [(phase, task, (resultNorm res).2)] := by
  rw [wrapper_failed, wStart_of_started st hw, if_pos hf]

/-- C6 witness: the amended statement for a `(False, "X")` invocation in a
running workflow. -/
theorem c6_single_failure_single_append_witness :
    (wrapper "p" "t" 1 0 failX failOnceState).1.failed_tasks =
      failOnceState.failed_tasks ++ [("p", "t", (resultNorm failX).2)] :=
  c6_single_failure_single_append failOnceState "p" "t" 1 0 failX
    (by decide) (by decide)
